import Mathlib

/-!
Shallow embedding of the streaming chat/replay engine of
`src/web/src/core/api/chat.ts` (flow-ui).

The engine parses an SSE-like wire format into `(event, data)` frames,
decodes each frame's `data` payload as JSON, and replays the resulting
typed events with pacing delays.  We model:

* JavaScript string primitives used by the source (`split`, `startsWith`,
  `substring`, `trim`, the CRLF-normalising regex replace) over `List Char`;
* `JSON.parse` as a fuel-based recursive-descent parser into a `Json` tree;
* the frame parser and decoder of `chatReplayStream`;
* the pacing engine as a trace of `sleepInReplay` calls and event emissions;
* the replay source resolver (`URLSearchParams` model, `REPLAY_DATA`
  registry, `isValidReplayId`);
* the transcript cache of `fetchReplay` as explicit state passing;
* the live-path façade `chatStream` with the transport outcome abstracted,
  since `fetchStream` lives outside the analysed sources.
-/

namespace FlowUI

/-! ## JavaScript string primitives over `List Char` -/

/-- Characters treated as whitespace by `String.prototype.trim` (the ASCII
subset; the exotic Unicode space classes do not occur in transcripts). -/
def jsIsWs (c : Char) : Bool :=
  c = ' ' || c = '\t' || c = '\n' || c = '\r' || c = '\x0b' || c = '\x0c'

/-- JavaScript `String.prototype.trim` on a character list. -/
def jsTrim (cs : List Char) : List Char :=
  ((cs.dropWhile jsIsWs).reverse.dropWhile jsIsWs).reverse

/-- JavaScript `String.prototype.startsWith` on character lists. -/
def jsStartsWith (pre cs : List Char) : Bool :=
  pre.isPrefixOf cs

/-- The global regex replace `text.replace(/\r\n/g, "\n")`: scan left to
right, replacing each (non-overlapping) `"\r\n"` occurrence by `"\n"`. -/
def crlfToLf : List Char → List Char
  | [] => []
  | '\r' :: '\n' :: rest => '\n' :: crlfToLf rest
  | c :: rest => c :: crlfToLf rest

/-- Fuel-based worker for `String.prototype.split` with a non-empty
separator: accumulate characters until the separator is a prefix of the
remainder, then cut.  Fuel `≥ length + 1` always suffices. -/
def jsSplitAux (sep : List Char) : Nat → List Char → List Char → List (List Char)
  | 0, acc, rest => [acc.reverse ++ rest]
  | _ + 1, acc, [] => [acc.reverse]
  | fuel + 1, acc, c :: rest =>
    if jsStartsWith sep (c :: rest) then
      acc.reverse :: jsSplitAux sep fuel [] ((c :: rest).drop sep.length)
    else
      jsSplitAux sep fuel (c :: acc) rest

/-- JavaScript `String.prototype.split(sep)` for a non-empty separator `sep`. -/
def jsSplit (sep cs : List Char) : List (List Char) :=
  jsSplitAux sep (cs.length + 1) [] cs

/-! ## The JSON value model and `JSON.parse` -/

/-- JSON values as produced by `JSON.parse`.  Numbers are kept exactly as
`mantissa × 10 ^ exp10` (sufficient for the integer/decimal grammar of
JSON); object fields keep their textual order, duplicates included. -/
inductive Json where
  | null : Json
  | bool (b : Bool) : Json
  | num (mantissa : Int) (exp10 : Int) : Json
  | str (s : String) : Json
  | arr (elems : List Json) : Json
  | obj (fields : List (String × Json)) : Json
deriving Repr

/-- JavaScript property access `v[k]` on a parsed JSON value: `none` is
`undefined` (absent field, or the value is not an object).  `JSON.parse`
keeps the last duplicate key, so lookup takes the last match. -/
def Json.getField : Json → String → Option Json
  | .obj fields, k => (fields.filter (fun p => p.1 = k)).getLast?.map (·.2)
  | _, _ => none

/-- JavaScript truthiness of a property-access result (`undefined`, `null`,
`false`, `0` and `""` are falsy). -/
def jsTruthy : Option Json → Bool
  | none => false
  | some .null => false
  | some (.bool b) => b
  | some (.num m _) => m ≠ 0
  | some (.str s) => s ≠ ""
  | some (.arr _) => true
  | some (.obj _) => true

/-- JSON whitespace (`ws` of ECMA-404). -/
def jsonWs (c : Char) : Bool :=
  c = ' ' || c = '\t' || c = '\n' || c = '\r'

def skipWs (cs : List Char) : List Char :=
  cs.dropWhile jsonWs

def hexVal (c : Char) : Option Nat :=
  if '0' ≤ c ∧ c ≤ '9' then some (c.toNat - '0'.toNat)
  else if 'a' ≤ c ∧ c ≤ 'f' then some (c.toNat - 'a'.toNat + 10)
  else if 'A' ≤ c ∧ c ≤ 'F' then some (c.toNat - 'A'.toNat + 10)
  else none

/-- Body of a JSON string literal (after the opening quote): returns the
decoded contents and the remainder after the closing quote. -/
def pStrAux (acc : List Char) : List Char → Option (String × List Char)
  | [] => none
  | '"' :: rest => some (String.mk acc.reverse, rest)
  | '\\' :: e :: rest =>
    match e, rest with
    | '"', r => pStrAux ('"' :: acc) r
    | '\\', r => pStrAux ('\\' :: acc) r
    | '/', r => pStrAux ('/' :: acc) r
    | 'b', r => pStrAux ('\x08' :: acc) r
    | 'f', r => pStrAux ('\x0c' :: acc) r
    | 'n', r => pStrAux ('\n' :: acc) r
    | 'r', r => pStrAux ('\r' :: acc) r
    | 't', r => pStrAux ('\t' :: acc) r
    | 'u', h1 :: h2 :: h3 :: h4 :: r =>
      match hexVal h1, hexVal h2, hexVal h3, hexVal h4 with
      | some a, some b, some c, some d =>
        pStrAux (Char.ofNat (((a * 16 + b) * 16 + c) * 16 + d) :: acc) r
      | _, _, _, _ => none
    | _, _ => none
  | c :: rest => if c.toNat < 0x20 then none else pStrAux (c :: acc) rest

def isDigit (c : Char) : Bool := '0' ≤ c && c ≤ '9'

def takeDigits : List Char → List Char × List Char
  | [] => ([], [])
  | c :: rest =>
    if isDigit c then
      let (ds, r) := takeDigits rest
      (c :: ds, r)
    else ([], c :: rest)

def digitsToNat (ds : List Char) : Nat :=
  ds.foldl (fun n c => n * 10 + (c.toNat - '0'.toNat)) 0

/-- JSON number literal: `-? (0 | [1-9][0-9]*) (. [0-9]+)? ([eE][+-]?[0-9]+)?`,
returned as `Json.num mantissa exp10`. -/
def pNum (cs : List Char) : Option (Json × List Char) :=
  let (neg, cs1) :=
    match cs with
    | '-' :: rest => (true, rest)
    | _ => (false, cs)
  match takeDigits cs1 with
  | ([], _) => none
  | (intDs, rest1) =>
    if intDs.length > 1 ∧ intDs.headI = '0' then none
    else
      let (fracDs, rest2) :=
        match rest1 with
        | '.' :: r => takeDigits r
        | _ => ([], rest1)
      if rest1.headI = '.' ∧ fracDs = [] then none
      else
        let rest2' := if rest1.headI = '.' ∧ rest1 ≠ [] then rest2 else rest1
        match rest2' with
        | e :: r =>
          if e = 'e' ∨ e = 'E' then
            let (esign, r1) :=
              match r with
              | '+' :: r' => ((1 : Int), r')
              | '-' :: r' => ((-1 : Int), r')
              | _ => ((1 : Int), r)
            match takeDigits r1 with
            | ([], _) => none
            | (expDs, r2) =>
              let mantissa : Int :=
                (if neg then -1 else 1) * (digitsToNat intDs * 10 ^ fracDs.length + digitsToNat fracDs)
              some (.num mantissa (esign * digitsToNat expDs - fracDs.length), r2)
          else
            let mantissa : Int :=
              (if neg then -1 else 1) * (digitsToNat intDs * 10 ^ fracDs.length + digitsToNat fracDs)
            some (.num mantissa (-(fracDs.length : Int)), e :: r)
        | [] =>
          let mantissa : Int :=
            (if neg then -1 else 1) * (digitsToNat intDs * 10 ^ fracDs.length + digitsToNat fracDs)
          some (.num mantissa (-(fracDs.length : Int)), [])

mutual

/-- Recursive-descent JSON value parser; the fuel bounds nesting depth. -/
def pVal : Nat → List Char → Option (Json × List Char)
  | 0, _ => none
  | fuel + 1, cs =>
    match skipWs cs with
    | 'n' :: 'u' :: 'l' :: 'l' :: rest => some (.null, rest)
    | 't' :: 'r' :: 'u' :: 'e' :: rest => some (.bool true, rest)
    | 'f' :: 'a' :: 'l' :: 's' :: 'e' :: rest => some (.bool false, rest)
    | '"' :: rest => (pStrAux [] rest).map (fun p => (.str p.1, p.2))
    | '[' :: rest =>
      match skipWs rest with
      | ']' :: r => some (.arr [], r)
      | other => pArr fuel other []
    | '\x7b' :: rest =>
      match skipWs rest with
      | '\x7d' :: r => some (.obj [], r)
      | other => pObj fuel other []
    | c :: rest =>
      if isDigit c ∨ c = '-' then pNum (c :: rest) else none
    | [] => none

/-- Array elements after `[` (first element pending). -/
def pArr : Nat → List Char → List Json → Option (Json × List Char)
  | 0, _, _ => none
  | fuel + 1, cs, acc =>
    match pVal fuel cs with
    | none => none
    | some (v, rest) =>
      match skipWs rest with
      | ',' :: r => pArr fuel r (v :: acc)
      | ']' :: r => some (.arr (v :: acc).reverse, r)
      | _ => none

/-- Object members after `{` (first member pending). -/
def pObj : Nat → List Char → List (String × Json) → Option (Json × List Char)
  | 0, _, _ => none
  | fuel + 1, cs, acc =>
    match skipWs cs with
    | '"' :: rest =>
      match pStrAux [] rest with
      | none => none
      | some (key, rest1) =>
        match skipWs rest1 with
        | ':' :: rest2 =>
          match pVal fuel rest2 with
          | none => none
          | some (v, rest3) =>
            match skipWs rest3 with
            | ',' :: r => pObj fuel r ((key, v) :: acc)
            | '\x7d' :: r => some (.obj ((key, v) :: acc).reverse, r)
            | _ => none
        | _ => none
    | _ => none

end

/-- Model of `JSON.parse`: parse one JSON value, allow surrounding whitespace,
reject trailing content; `none` models the thrown `SyntaxError`. -/
def jsonParse (s : String) : Option Json :=
  match pVal (s.data.length + 1) s.data with
  | some (j, rest) => if skipWs rest = [] then some j else none
  | none => none

/-! ## Event frame parser (`chatReplayStream`, lines 136–156)

The source normalises CRLF, splits the transcript on `"\n\n"`, and for each
chunk scans its lines, keeping the remainder of lines starting with
`"event: "` resp. `"data: "` in two mutable variables (later lines
overwrite), then skips the chunk unless both are non-empty. -/

def eventMarker : List Char := "event: ".data
def dataMarker : List Char := "data: ".data

/-- One step of the line loop: `event = line.substring(7)` /
`data = line.substring(6)` on a prefix match, otherwise no change. -/
def scanLine (acc : List Char × List Char) (line : List Char) : List Char × List Char :=
  if jsStartsWith eventMarker line then (line.drop 7, acc.2)
  else if jsStartsWith dataMarker line then (acc.1, line.drop 6)
  else acc

/-- The per-chunk body of the frame loop: skip blank chunks, fold the line
scanner over `chunk.split("\n")`, skip unless both captures are non-empty. -/
def parseChunk (chunk : List Char) : Option (String × String) :=
  if jsTrim chunk = [] then none
  else
    let (event, data) := (jsSplit "\n".data chunk).foldl scanLine ([], [])
    if event = [] ∨ data = [] then none
    else some (String.mk event, String.mk data)

/-- The chunk list of a transcript: CRLF-normalise, split on `"\n\n"`. -/
def chunksOf (text : String) : List (List Char) :=
  jsSplit "\n\n".data (crlfToLf text.data)

/-- The frame sequence of a transcript: the chunk loop with its two
`continue`s is a `filterMap` of `parseChunk` over the chunks. -/
def parseFrames (text : String) : List (String × String) :=
  (chunksOf text).filterMap parseChunk

/-! ## Event decoder -/

/-- A typed stream event: the frame's event name paired with its decoded
JSON payload (`{ type, data }` in the source). -/
abbrev ChatEvent := String × Json

/-- Decode one frame: `JSON.parse(data)` tagged with the event name; `none`
models the caught-and-logged per-frame decode failure. -/
def decodeFrame (frame : String × String) : Option ChatEvent :=
  (jsonParse frame.2).map (fun j => (frame.1, j))

/-- The decoded event sequence of a transcript: decode failures are caught
per frame (`try … catch`), so the loop is again a `filterMap`. -/
def decodedEvents (text : String) : List ChatEvent :=
  (parseFrames text).filterMap decodeFrame

/-! ## Replay pacing engine (`chatReplayStream` loop body, lines 158–180)

We record the behaviour of a replay run as a trace of actions: each
`sleepInReplay(ms)` call (with its requested duration) and each `yield`.
The fast-forward flag only changes how a `sleep` is interpreted
(`sleepInReplay` sleeps `0` when the flag is set), never the trace shape. -/

inductive ReplayAction where
  | sleep (requestedMs : Nat) : ReplayAction
  | emit (ev : ChatEvent) : ReplayAction
deriving Repr

/-- The `sleepInReplay` helper: the effective duration slept for a requested duration,
given the `fastForwardReplaying` flag. -/
def sleepInReplay (fastForward : Bool) (ms : Nat) : Nat :=
  if fastForward then 0 else ms

/-- The initial value of the module-level `fastForwardReplaying` flag. -/
def initialFastForward : Bool := false

/-- Sleeps issued before yielding an event: 50ms for an unfinished
`message_chunk` (falsy `finish_reason`), 500ms for a `tool_call_result`. -/
def preActions (ev : ChatEvent) : List ReplayAction :=
  if ev.1 = "message_chunk" then
    if jsTruthy (ev.2.getField "finish_reason") then [] else [.sleep 50]
  else if ev.1 = "tool_call_result" then [.sleep 500]
  else []

/-- The strict equality `v === "user"`: true exactly when the property
access yielded the string `"user"`. -/
def isUserRole : Option Json → Bool
  | some (.str s) => s = "user"
  | _ => false

/-- Sleeps issued after yielding an event: 800ms for a `tool_call_result`,
500ms for a `message_chunk` whose `role` is `"user"`. -/
def postActions (ev : ChatEvent) : List ReplayAction :=
  if ev.1 = "tool_call_result" then [.sleep 800]
  else if ev.1 = "message_chunk" then
    if isUserRole (ev.2.getField "role") then [.sleep 500] else []
  else []

/-- The trace of one loop iteration for a successfully decoded event whose
property accesses succeed. -/
def eventActions (ev : ChatEvent) : List ReplayAction :=
  preActions ev ++ [.emit ev] ++ postActions ev

def Json.isNull : Json → Bool
  | .null => true
  | _ => false

/-- Whether a decoded event makes it through its loop iteration: for a
`message_chunk` whose payload is JSON `null`, the access
`chatEvent.data.finish_reason` throws a `TypeError` (property access on
`null`), which the per-frame `try … catch` logs — the frame is skipped
before any sleep or yield.  Every other payload shape is safe: property
access on a non-null primitive yields `undefined`, not an error. -/
def survivesIteration (ev : ChatEvent) : Bool :=
  !(ev.1 == "message_chunk" && ev.2.isNull)

/-- The trace of one loop iteration: nothing for a frame whose property
access throws, otherwise the paced emission. -/
def iterActions (ev : ChatEvent) : List ReplayAction :=
  if ev.1 == "message_chunk" && ev.2.isNull then [] else eventActions ev

/-- The full replay trace of an event sequence. -/
def pacingTrace (evs : List ChatEvent) : List ReplayAction :=
  (evs.map iterActions).flatten

/-- The events yielded by a trace, in order. -/
def emitsOf (tr : List ReplayAction) : List ChatEvent :=
  tr.filterMap (fun a => match a with | .emit ev => some ev | .sleep _ => none)

/-- Total milliseconds slept along a trace, under a fast-forward flag. -/
def elapsedOf (fastForward : Bool) (tr : List ReplayAction) : Nat :=
  (tr.map (fun a => match a with
    | .sleep ms => sleepInReplay fastForward ms
    | .emit _ => 0)).sum

/-- End-to-end replay of a transcript text: parse, decode, pace. -/
def replayTrace (text : String) : List ReplayAction :=
  pacingTrace (decodedEvents text)

/-- The trace as executed under a given `fastForwardReplaying` value: every
`sleepInReplay ms` call actually sleeps `sleepInReplay ff ms`. -/
def executedTrace (ff : Bool) (text : String) : List ReplayAction :=
  (replayTrace text).map (fun a =>
    match a with
    | .sleep ms => .sleep (sleepInReplay ff ms)
    | .emit ev => .emit ev)

/-- Written from the spec's description of the line scan, for comparison
with the source's fold: the capture is the remainder (after `dropCount`
characters) of the *last* line carrying the prefix, or empty if none. -/
def specLastCapture (pre : List Char) (dropCount : Nat)
    (lines : List (List Char)) : List Char :=
  ((lines.filter (fun l => jsStartsWith pre l)).map (fun l => l.drop dropCount)).getLastD []

/-! ## `URLSearchParams` model (the ASCII fragment used by the resolver) -/

/-- The `application/x-www-form-urlencoded` plus-sign decoding. -/
def plusToSpace (cs : List Char) : List Char :=
  cs.map (fun c => if c = '+' then ' ' else c)

/-- Percent-decoding of single-byte escapes; invalid sequences are kept
verbatim, as `URLSearchParams` does. -/
def pctDecode : List Char → List Char
  | [] => []
  | '%' :: h1 :: h2 :: rest =>
    match hexVal h1, hexVal h2 with
    | some a, some b => Char.ofNat (a * 16 + b) :: pctDecode rest
    | _, _ => '%' :: pctDecode (h1 :: h2 :: rest)
  | c :: rest => c :: pctDecode rest

/-- Decode one key or value of a query-string pair. -/
def formDecode (cs : List Char) : String :=
  String.mk (pctDecode (plusToSpace cs))

/-- Split a `key=value` segment at the first `=` (a segment without `=` is
all key, with empty value). -/
def splitKV (seg : List Char) : List Char × List Char :=
  match seg.splitOnP (· = '=') with
  | [] => ([], [])
  | k :: rest => (k, (rest.intersperse ['=']).flatten)

/-- Model of `new URLSearchParams(search)`: drop a leading `?`, split on `&`, drop
empty segments, split each segment at its first `=`, decode both sides. -/
def parseQuery (search : String) : List (String × String) :=
  let cs := match search.data with
    | '?' :: rest => rest
    | other => other
  (jsSplit "&".data cs).filterMap (fun seg =>
    if seg = [] then none
    else
      let (k, v) := splitKV seg
      some (formDecode k, formDecode v))

/-- The lookup `urlParams.has(k)`. -/
def hasParam (q : List (String × String)) (k : String) : Bool :=
  q.any (fun p => p.1 = k)

/-- The lookup `urlParams.get(k)`: the first value, or `null`. -/
def getParam (q : List (String × String)) (k : String) : Option String :=
  (q.find? (fun p => p.1 = k)).map (·.2)

/-! ## Replay source resolver (`chatReplayStream`, lines 106–130) -/

/-- The `REPLAY_DATA` registry of valid replay ids and their titles. -/
def REPLAY_DATA : List (String × String) :=
  [("ai-twin-insurance", "Would you insure your AI twin?"),
   ("china-food-delivery", "How do you view the takeaway war in China?"),
   ("eiffel-tower-vs-tallest-building", "How tall is Eiffel Tower compared to tallest building?"),
   ("github-top-trending-repo", "What are the top trending repositories on GitHub?"),
   ("nanjing-traditional-dishes", "Write an article about Nanjing\x27s traditional dishes"),
   ("rag", "RAG demonstration"),
   ("rental-apartment-decoration", "How to decorate a small rental apartment?"),
   ("review-of-the-professional", "Introduce the movie \x27LÃ©on: The Professional\x27"),
   ("ultra-processed-foods", "Are ultra-processed foods linked to health?")]

/-- The property names every plain object inherits from
`Object.prototype` in a browser engine (ECMA-262 including Annex B). -/
def objectPrototypeKeys : List String :=
  ["constructor", "hasOwnProperty", "isPrototypeOf", "propertyIsEnumerable",
   "toLocaleString", "toString", "valueOf", "__proto__",
   "__defineGetter__", "__defineSetter__", "__lookupGetter__", "__lookupSetter__"]

/-- The check `isValidReplayId` is `replayId in REPLAY_DATA`: the JavaScript `in`
operator checks own keys *and* the prototype chain, so ids naming an
`Object.prototype` property (e.g. `"toString"`) also pass. -/
def isValidReplayId (replayId : String) : Bool :=
  REPLAY_DATA.any (fun p => p.1 = replayId) || objectPrototypeKeys.contains replayId

/-- The `mock`-present-but-empty fallback keyed on
`params.interrupt_feedback`. -/
def mockDefaultPath (interruptFeedback : Option String) : String :=
  if interruptFeedback = some "accepted" then "/mock/final-answer.txt"
  else if interruptFeedback = some "edit_plan" then "/mock/re-plan.txt"
  else "/mock/first-plan.txt"

/-- The resolver: from the page's query string, the request's
`interrupt_feedback`, and the id extracted by the (external)
`extractReplayIdFromSearchParams` collaborator, produce the transcript path
and the new value of the `fastForwardReplaying` flag (the mock branch
forces it to `true`; the other branches leave it unchanged). -/
def resolveReplayPath (search : String) (interruptFeedback : Option String)
    (extractedReplayId : Option String) (fastForwardBefore : Bool) :
    String × Bool :=
  let urlParams := parseQuery search
  if hasParam urlParams "mock" then
    let path :=
      match getParam urlParams "mock" with
      | some v => if v ≠ "" then s!"/mock/{v}.txt" else mockDefaultPath interruptFeedback
      | none => mockDefaultPath interruptFeedback
    (path, true)
  else
    match extractedReplayId with
    | some replayId =>
      if replayId ≠ "" ∧ isValidReplayId replayId then
        (s!"/replay/{replayId}.txt", fastForwardBefore)
      else ("/mock/first-plan.txt", fastForwardBefore)
    | none => ("/mock/first-plan.txt", fastForwardBefore)

/-! ## Transcript cache (`fetchReplay`, lines 207–223) -/

/-- The module-level `replayCache` map, as an association list (insertion
order; at most one entry per key, as with a JS `Map`). -/
abbrev ReplayCache := List (String × String)

def cacheGet (cache : ReplayCache) (url : String) : Option String :=
  (cache.find? (fun p => p.1 = url)).map (·.2)

/-- JavaScript `Map.set`: overwrite an existing key in place, else append. -/
def cacheSet (cache : ReplayCache) (url text : String) : ReplayCache :=
  if cache.any (fun p => p.1 = url) then
    cache.map (fun p => if p.1 = url then (url, text) else p)
  else cache ++ [(url, text)]

/-- The `fetchReplay` operation: cache hit returns the cached text without touching the
network; otherwise fetch (the abstract `net` is the `fetch`+`res.text()`
round trip, `.error` covering network failure and non-ok status), then
cache.  The returned `Bool` records whether a network fetch happened. -/
def fetchReplay (net : String → Except String String) (cache : ReplayCache)
    (url : String) : Except String (String × ReplayCache × Bool) :=
  match cacheGet cache url with
  | some text => .ok (text, cache, false)
  | none =>
    match net url with
    | .ok text => .ok (text, cacheSet cache url text, true)
    | .error e => .error s!"Failed to fetch replay: {e}"

/-! ## Unified stream façade (`chatStream`, lines 58–84)

`fetchStream` (in `core/sse`) is outside the analysed sources.  Modelled
from the spec: §4.3 — the live transport yields the stream's frames as they
arrive and raises on network error or non-success status.  A live run is
therefore abstracted as the frames delivered before the stream either ended
normally or threw. -/

structure LiveOutcome where
  /-- Frames delivered by `fetchStream` before it finished or threw. -/
  frames : List (String × String)
  /-- Holds `some msg` when the request/stream threw (network error, non-2xx). -/
  failure : Option String
deriving Repr

/-- Substring occurrence test on character lists. -/
def hasSubstr (sub : List Char) : List Char → Bool
  | [] => sub.isEmpty
  | c :: rest => sub.isPrefixOf (c :: rest) || hasSubstr sub rest

/-- JavaScript `s.includes(sub)`. -/
def jsIncludes (s sub : String) : Bool :=
  hasSubstr sub.data s.data

/-- The live loop body: yield `{ type: event, data: JSON.parse(data) }` per
frame; a `JSON.parse` exception escapes the loop into the façade's `catch`,
dropping every later frame. -/
def liveDecode : List (String × String) → List ChatEvent
  | [] => []
  | f :: rest =>
    match jsonParse f.2 with
    | some j => (f.1, j) :: liveDecode rest
    | none => []

/-- The events produced by `chatStream`: delegate to the replay path when
the static-site flag is set or the query string contains `"mock"` or
`"replay="`; otherwise run the live path inside `try … catch`, where any
failure ends the sequence with no further event. -/
def chatStreamEvents (staticWebsiteOnly : Bool) (search : String)
    (outcome : LiveOutcome) (replayEvents : List ChatEvent) : List ChatEvent :=
  if staticWebsiteOnly || jsIncludes search "mock" || jsIncludes search "replay=" then
    replayEvents
  else
    liveDecode outcome.frames

/-! ## General lemmas -/

theorem filterMap_map_some_sublist {α β : Type} (f : α → Option β) :
    ∀ l : List α, ((l.filterMap f).map some).Sublist (l.map f) := by
  intro l
  induction l with
  | nil => simp
  | cons a l ih =>
    cases h : f a with
    | none =>
      simp only [List.filterMap_cons, h, List.map_cons]
      exact ih.cons _
    | some b => simp [List.filterMap_cons, h, ih]

theorem emitsOf_append (a b : List ReplayAction) :
    emitsOf (a ++ b) = emitsOf a ++ emitsOf b :=
  List.filterMap_append ..

theorem emitsOf_preActions (ev : ChatEvent) : emitsOf (preActions ev) = [] := by
  unfold preActions
  split
  · split <;> rfl
  · split <;> rfl

theorem emitsOf_postActions (ev : ChatEvent) : emitsOf (postActions ev) = [] := by
  unfold postActions
  split
  · rfl
  · split
    · split <;> rfl
    · rfl

theorem emitsOf_eventActions (ev : ChatEvent) :
    emitsOf (eventActions ev) = [ev] := by
  unfold eventActions
  rw [emitsOf_append, emitsOf_append, emitsOf_preActions, emitsOf_postActions]
  rfl

theorem emitsOf_iterActions (ev : ChatEvent) :
    emitsOf (iterActions ev) = if survivesIteration ev then [ev] else [] := by
  unfold iterActions survivesIteration
  cases h : (ev.1 == "message_chunk" && ev.2.isNull) with
  | true => simp [h]; rfl
  | false => simp [h, emitsOf_eventActions]

theorem emitsOf_pacingTrace (evs : List ChatEvent) :
    emitsOf (pacingTrace evs) = evs.filter survivesIteration := by
  induction evs with
  | nil => rfl
  | cons ev evs ih =>
    unfold pacingTrace at ih ⊢
    rw [List.map_cons, List.flatten_cons, emitsOf_append, ih, emitsOf_iterActions,
      List.filter_cons]
    cases h : survivesIteration ev <;> simp [h]

theorem emitsOf_map_exec (ff : Bool) (tr : List ReplayAction) :
    emitsOf (tr.map (fun a =>
      match a with
      | .sleep ms => .sleep (sleepInReplay ff ms)
      | .emit ev => .emit ev)) = emitsOf tr := by
  induction tr with
  | nil => rfl
  | cons a tr ih =>
    cases a <;> simp [emitsOf, List.filterMap_cons] at ih ⊢ <;> exact ih

theorem parseChunk_nonempty {chunk : List Char} {p : String × String}
    (h : parseChunk chunk = some p) : p.1 ≠ "" ∧ p.2 ≠ "" := by
  unfold parseChunk at h
  split at h
  · cases h
  · split at h
    rename_i event data _
    split at h
    · cases h
    · rename_i hne
      cases h
      rw [not_or] at hne
      refine ⟨fun hc => hne.1 ?_, fun hc => hne.2 ?_⟩
      · simpa using congrArg String.data hc
      · simpa using congrArg String.data hc

/-! ## The claims -/

/-- C1: replaying the two-frame transcript
`event: message_chunk / data: {"finish_reason":null}` then
`event: tool_call_result / data: {"result":"ok"}` under fast-forward yields
exactly the two typed events `message_chunk` (data `{finish_reason: null}`)
and `tool_call_result` (data `{result: "ok"}`), in that order, with zero
total slept time. -/
theorem chatReplay_c1_fast_forward_two_events :
    emitsOf (executedTrace true "event: message_chunk\ndata: \x7b\"finish_reason\":null\x7d\n\nevent: tool_call_result\ndata: \x7b\"result\":\"ok\"\x7d\n\n") =
      [("message_chunk", Json.obj [("finish_reason", Json.null)]),
       ("tool_call_result", Json.obj [("result", Json.str "ok")])] ∧
    elapsedOf true (replayTrace "event: message_chunk\ndata: \x7b\"finish_reason\":null\x7d\n\nevent: tool_call_result\ndata: \x7b\"result\":\"ok\"\x7d\n\n") = 0 :=
  ⟨rfl, rfl⟩

/-- C2: the frame parser only ever emits pairs whose event name and data
are both non-empty, and the emitted pairs form an order-preserving
selection of the per-chunk parse results (chunks that fail are skipped,
never aborting the scan). -/
theorem chatReplay_c2_frame_parser_lenient (text : String) :
    (∀ p ∈ parseFrames text, p.1 ≠ "" ∧ p.2 ≠ "") ∧
    ((parseFrames text).map some).Sublist ((chunksOf text).map parseChunk) := by
  constructor
  · intro p hp
    unfold parseFrames at hp
    rcases List.mem_filterMap.mp hp with ⟨chunk, _, hc⟩
    exact parseChunk_nonempty hc
  · exact filterMap_map_some_sublist parseChunk (chunksOf text)

theorem chatReplay_c2_witness :
    (("a", "1") ∈ parseFrames "event: a\ndata: 1\n\nbroken\n\n") ∧
    ("a", "1").1 ≠ "" ∧ ("a", "1").2 ≠ "" :=
  ⟨by decide,
   (chatReplay_c2_frame_parser_lenient "event: a\ndata: 1\n\nbroken\n\n").1
     ("a", "1") (by decide)⟩

/-- C3 counterexample: in this transcript the first frame's payload is not
valid JSON and the second frame's payload parses successfully (to JSON
`null`), yet replay emits nothing — the claim's "still emits every
subsequent frame whose payload parses successfully" fails, because the
`message_chunk`/`null` frame dies on its own property access, not because
of the malformed frame. -/
theorem chatReplay_c3_counterexample :
    parseFrames "event: x\ndata: not-json\n\nevent: message_chunk\ndata: null\n\n" =
      [("x", "not-json"), ("message_chunk", "null")] ∧
    jsonParse "not-json" = none ∧
    jsonParse "null" = some Json.null ∧
    emitsOf (executedTrace false "event: x\ndata: not-json\n\nevent: message_chunk\ndata: null\n\n") = [] :=
  ⟨rfl, rfl, rfl, rfl⟩

/-- C3 (amended): a frame whose payload fails to decode as JSON is skipped
and the decoded sequence is exactly the decode of the frames before it
followed by the decode of the frames after it — so one malformed frame
never terminates the replay — and the events actually emitted are exactly
the successfully decoded ones that survive their own loop iteration (a
`message_chunk` frame with payload `null` is skipped by the same per-frame
`try`/`catch`). -/
theorem chatReplay_c3_decode_failure_skips_frame (text : String)
    (pre post : List (String × String)) (e d : String)
    (hsplit : parseFrames text = pre ++ (e, d) :: post)
    (hbad : jsonParse d = none) :
    decodedEvents text = pre.filterMap decodeFrame ++ post.filterMap decodeFrame ∧
    emitsOf (replayTrace text) =
      (pre.filterMap decodeFrame ++ post.filterMap decodeFrame).filter survivesIteration := by
  have hdec : decodedEvents text = pre.filterMap decodeFrame ++ post.filterMap decodeFrame := by
    unfold decodedEvents
    rw [hsplit, List.filterMap_append, List.filterMap_cons]
    simp [decodeFrame, hbad]
  refine ⟨hdec, ?_⟩
  unfold replayTrace
  rw [emitsOf_pacingTrace, hdec]

theorem chatReplay_c3_witness :
    decodedEvents "event: a\ndata: not-json\n\nevent: b\ndata: \x7b\x7d\n\n" =
      List.filterMap decodeFrame [] ++ List.filterMap decodeFrame [("b", "\x7b\x7d")] ∧
    emitsOf (replayTrace "event: a\ndata: not-json\n\nevent: b\ndata: \x7b\x7d\n\n") =
      (List.filterMap decodeFrame [] ++
        List.filterMap decodeFrame [("b", "\x7b\x7d")]).filter survivesIteration :=
  chatReplay_c3_decode_failure_skips_frame _ [] [("b", "\x7b\x7d")] "a" "not-json" rfl rfl

/-- C9: the typed-event sequence of a replay is the same under any two
values of the fast-forward flag — the flag only changes how long each
`sleepInReplay` call sleeps — and equals, for either flag value, the
decoded event sequence restricted to the frames that survive their loop
iteration. -/
theorem chatReplay_c9_fast_forward_preserves_events (text : String) (ff₁ ff₂ : Bool) :
    emitsOf (executedTrace ff₁ text) = emitsOf (executedTrace ff₂ text) ∧
    emitsOf (executedTrace ff₁ text) = (decodedEvents text).filter survivesIteration := by
  have h : ∀ ff, emitsOf (executedTrace ff text) =
      (decodedEvents text).filter survivesIteration := by
    intro ff
    unfold executedTrace replayTrace
    rw [emitsOf_map_exec, emitsOf_pacingTrace]
  exact ⟨(h ff₁).trans (h ff₂).symm, h ff₁⟩

/-- C4: a `tool_call_result` event is emitted between a `sleepInReplay 500`
call and a `sleepInReplay 800` call; those calls sleep their requested
durations with fast-forward off and `0` with it on; an event of any other
type is never preceded by the 500ms call nor followed by the 800ms call. -/
theorem chatReplay_c4_tool_call_result_delays (ev : ChatEvent) :
    (ev.1 = "tool_call_result" →
      iterActions ev = [.sleep 500, .emit ev, .sleep 800] ∧
      sleepInReplay false 500 = 500 ∧ sleepInReplay false 800 = 800 ∧
      sleepInReplay true 500 = 0 ∧ sleepInReplay true 800 = 0) ∧
    (ev.1 ≠ "tool_call_result" →
      ReplayAction.sleep 500 ∉ preActions ev ∧
      ReplayAction.sleep 800 ∉ postActions ev) := by
  constructor
  · intro h
    refine ⟨?_, rfl, rfl, rfl, rfl⟩
    simp [iterActions, eventActions, preActions, postActions, h]
  · intro h
    constructor
    · by_cases hmc : ev.1 = "message_chunk"
      · simp only [preActions, hmc, reduceIte]
        split <;> simp
      · simp [preActions, hmc, h]
    · by_cases hmc : ev.1 = "message_chunk"
      · simp only [postActions, hmc]
        split
        · rename_i hbad
          exact absurd hbad (by decide)
        · split
          · split <;> simp
          · simp
      · simp [postActions, hmc, h]

theorem chatReplay_c4_witness :
    iterActions ("tool_call_result", Json.obj [("result", Json.str "ok")]) =
      [.sleep 500, .emit ("tool_call_result", Json.obj [("result", Json.str "ok")]), .sleep 800] ∧
    (ReplayAction.sleep 500 ∉ preActions ("interrupt", Json.null) ∧
     ReplayAction.sleep 800 ∉ postActions ("interrupt", Json.null)) :=
  ⟨((chatReplay_c4_tool_call_result_delays ("tool_call_result", Json.obj [("result", Json.str "ok")])).1 rfl).1,
   (chatReplay_c4_tool_call_result_delays ("interrupt", Json.null)).2 (by decide)⟩

/-- C5: on the live path (static flag off, query string free of `"mock"`
and `"replay="`), a streaming request that throws before delivering any
frame produces an empty event sequence — no typed event of any kind, and
no dependence on the replay path's events. -/
theorem chatStream_c5_live_failure_silent (search msg : String)
    (replayEvents : List ChatEvent)
    (hmock : jsIncludes search "mock" = false)
    (hreplay : jsIncludes search "replay=" = false) :
    chatStreamEvents false search ⟨[], some msg⟩ replayEvents = [] := by
  unfold chatStreamEvents
  rw [hmock, hreplay]
  rfl

theorem chatStream_c5_witness :
    chatStreamEvents false "?q=hello" ⟨[], some "network error"⟩
      [("message_chunk", Json.null)] = [] :=
  chatStream_c5_live_failure_silent "?q=hello" "network error"
    [("message_chunk", Json.null)] rfl rfl

theorem hasParam_of_getParam {q : List (String × String)} {k v : String}
    (h : getParam q k = some v) : hasParam q k = true := by
  unfold getParam at h
  cases hf : q.find? (fun p => p.1 = k) with
  | none => rw [hf] at h; cases h
  | some p =>
    have hmem := List.mem_of_find?_eq_some hf
    have hpred := List.find?_some hf
    exact List.any_eq_true.mpr ⟨p, hmem, hpred⟩

/-- C6: whenever `urlParams.get("mock")` yields a non-empty value `v`, the
resolver picks `/mock/{v}.txt` and forces the fast-forward flag to `true`,
whatever the other query parameters, the `interrupt_feedback`, the
extracted replay id or the previous flag value were. -/
theorem chatReplay_c6_mock_param (search : String) (fb : Option String)
    (rid : Option String) (ff : Bool) (v : String)
    (hget : getParam (parseQuery search) "mock" = some v) (hv : v ≠ "") :
    resolveReplayPath search fb rid ff = (s!"/mock/{v}.txt", true) := by
  unfold resolveReplayPath
  simp [hasParam_of_getParam hget, hget, hv]

theorem chatReplay_c6_witness :
    resolveReplayPath "?mock=demo&replay=rag" (some "accepted") (some "rag") false =
      ("/mock/demo.txt", true) :=
  chatReplay_c6_mock_param "?mock=demo&replay=rag" (some "accepted") (some "rag")
    false "demo" rfl (by decide)

/-- C7: the registered id `rag` resolves to `/replay/rag.txt` and the
unknown id `zzz` falls back to the first-plan default, both leaving the
fast-forward flag at its previous value — but the id `toString`, which is
*not* a key of `REPLAY_DATA`, still resolves to `/replay/toString.txt`
instead of falling back: `isValidReplayId` uses the JavaScript `in`
operator, which also finds properties inherited from `Object.prototype`.
This contradicts the claim (and the code's own comment restricting valid
ids to the `/public/replay` directory). -/
theorem chatReplay_c7_unknown_id_prototype_bug :
    resolveReplayPath "?replay=rag" none (some "rag") false = ("/replay/rag.txt", false) ∧
    resolveReplayPath "?replay=zzz" none (some "zzz") false = ("/mock/first-plan.txt", false) ∧
    resolveReplayPath "?replay=toString" none (some "toString") false =
      ("/replay/toString.txt", false) ∧
    REPLAY_DATA.any (fun p => p.1 = "toString") = false :=
  ⟨rfl, rfl, rfl, by decide⟩

theorem cacheGet_cacheSet_self (cache : ReplayCache) (url text : String)
    (h : cacheGet cache url = none) :
    cacheGet (cacheSet cache url text) url = some text := by
  have hnone : cache.find? (fun p => p.1 = url) = none := by
    unfold cacheGet at h
    cases hf : cache.find? (fun p => p.1 = url) with
    | none => rfl
    | some p => rw [hf] at h; cases h
  have hany : cache.any (fun p => p.1 = url) = false :=
    List.any_eq_false.mpr (List.find?_eq_none.mp hnone)
  unfold cacheSet cacheGet
  simp [hany, List.find?_append, hnone, List.find?]

/-- C8: once `fetchReplay` has succeeded for a path, fetching the same path
again — under *any* network behaviour, even one that now fails — returns
the same text from the cache, leaves the cache unchanged, and performs no
network fetch. -/
theorem fetchReplay_c8_cached_idempotent
    (net net₂ : String → Except String String) (cache : ReplayCache)
    (url text : String) (cache' : ReplayCache) (fetched : Bool)
    (h : fetchReplay net cache url = .ok (text, cache', fetched)) :
    fetchReplay net₂ cache' url = .ok (text, cache', false) := by
  unfold fetchReplay at h ⊢
  cases hc : cacheGet cache url with
  | some t =>
    rw [hc] at h
    cases h
    rw [hc]
  | none =>
    rw [hc] at h
    cases hn : net url with
    | ok t =>
      rw [hn] at h
      cases h
      rw [cacheGet_cacheSet_self cache url text hc]
    | error e => rw [hn] at h; cases h

theorem fetchReplay_c8_witness :
    fetchReplay (fun _ => .error "offline") [("/mock/a.txt", "T")] "/mock/a.txt" =
      .ok ("T", [("/mock/a.txt", "T")], false) :=
  fetchReplay_c8_cached_idempotent (fun _ => .ok "T") (fun _ => .error "offline")
    [] "/mock/a.txt" "T" [("/mock/a.txt", "T")] true rfl

theorem eventMarker_dataMarker_disjoint (l : List Char)
    (h : jsStartsWith eventMarker l = true) : jsStartsWith dataMarker l = false := by
  cases l with
  | nil => exact absurd h (by decide)
  | cons c cs =>
    have he : (('e' == c) && (List.isPrefixOf "vent: ".data cs)) = true := h
    have hc : 'e' = c := by
      rw [Bool.and_eq_true] at he
      exact beq_iff_eq.mp he.1
    show (('d' == c) && (List.isPrefixOf "ata: ".data cs)) = false
    rw [← hc]
    rfl

theorem foldl_scanLine_fst (lines : List (List Char)) :
    ∀ acc : List Char × List Char,
      (lines.foldl scanLine acc).1 =
        ((lines.filter (fun l => jsStartsWith eventMarker l)).map
          (fun l => l.drop 7)).getLastD acc.1 := by
  induction lines with
  | nil => intro acc; rfl
  | cons l rest ih =>
    intro acc
    rw [List.foldl_cons, ih]
    by_cases h : jsStartsWith eventMarker l = true
    · have hfst : (scanLine acc l).1 = l.drop 7 := by
        unfold scanLine
        rw [if_pos h]
      rw [List.filter_cons_of_pos h, List.map_cons, List.getLastD_cons, hfst]
    · have hfst : (scanLine acc l).1 = acc.1 := by
        unfold scanLine
        rw [if_neg h]
        split <;> rfl
      rw [List.filter_cons_of_neg h, hfst]

theorem foldl_scanLine_snd (lines : List (List Char)) :
    ∀ acc : List Char × List Char,
      (lines.foldl scanLine acc).2 =
        ((lines.filter (fun l => jsStartsWith dataMarker l)).map
          (fun l => l.drop 6)).getLastD acc.2 := by
  induction lines with
  | nil => intro acc; rfl
  | cons l rest ih =>
    intro acc
    rw [List.foldl_cons, ih]
    by_cases h : jsStartsWith dataMarker l = true
    · have hev : jsStartsWith eventMarker l = false := by
        by_contra hcon
        rw [Bool.not_eq_false] at hcon
        rw [eventMarker_dataMarker_disjoint l hcon] at h
        cases h
      have hsnd : (scanLine acc l).2 = l.drop 6 := by
        unfold scanLine
        rw [if_neg (by rw [hev]; exact Bool.false_ne_true), if_pos h]
      rw [List.filter_cons_of_pos h, List.map_cons, List.getLastD_cons, hsnd]
    · have hsnd : (scanLine acc l).2 = acc.2 := by
        unfold scanLine
        split <;> rfl
      rw [List.filter_cons_of_neg h, hsnd]

/-- C10: the line scan of a chunk keeps, for each of the two prefixes, the
remainder of the *last* matching line — later `event: `/`data: ` lines
overwrite earlier ones (stated for chunks with more than one such line;
data lines are in particular never concatenated). -/
theorem chatReplay_c10_last_line_wins (chunk : List Char)
    (_hmulti :
      1 < ((jsSplit "\n".data chunk).filter (fun l => jsStartsWith eventMarker l)).length ∨
      1 < ((jsSplit "\n".data chunk).filter (fun l => jsStartsWith dataMarker l)).length) :
    ((jsSplit "\n".data chunk).foldl scanLine ([], [])).1 =
      specLastCapture eventMarker 7 (jsSplit "\n".data chunk) ∧
    ((jsSplit "\n".data chunk).foldl scanLine ([], [])).2 =
      specLastCapture dataMarker 6 (jsSplit "\n".data chunk) := by
  constructor
  · rw [foldl_scanLine_fst]
    rfl
  · rw [foldl_scanLine_snd]
    rfl

theorem chatReplay_c10_witness :
    ((jsSplit "\n".data "event: a\nevent: b\ndata: 1\ndata: 2".data).foldl scanLine ([], [])).1 =
      specLastCapture eventMarker 7 (jsSplit "\n".data "event: a\nevent: b\ndata: 1\ndata: 2".data) ∧
    ((jsSplit "\n".data "event: a\nevent: b\ndata: 1\ndata: 2".data).foldl scanLine ([], [])).2 =
      specLastCapture dataMarker 6 (jsSplit "\n".data "event: a\nevent: b\ndata: 1\ndata: 2".data) :=
  chatReplay_c10_last_line_wins "event: a\nevent: b\ndata: 1\ndata: 2".data
    (Or.inl (by decide))

end FlowUI
